import Mathlib

/-!
Shallow embedding of the project-switcher persistence layer and its
interactive workflows.

The store is the JSON-file-backed `DatabaseManager` of the source: its
state is the parsed document `{categories, projects, lastCategoryId,
lastProjectId}`, and every operation is a pure function from that state
to a new state plus the operation's return value.  File I/O (`_load`,
`_save`) only moves this state to and from disk and is not modelled.
The interactive workflows of `ProjectQuickPickProvider` are modelled as
functions of the store state and of the user's answer to each prompt
(`none` = the prompt was cancelled / returned no value).
-/

namespace ProjectSwitcher

/-- Model of JavaScript `String.prototype.trim`'s whitespace test. -/
def isWsChar (c : Char) : Bool := c = ' ' || c = '\t' || c = '\n' || c = '\r'

/-- Model of JavaScript `String.prototype.trim`: drop leading and trailing
whitespace. -/
def strTrim (s : String) : String :=
  ⟨((s.data.dropWhile isWsChar).reverse.dropWhile isWsChar).reverse⟩

/-- A category row: `interface Category { id, name }`. -/
structure Category where
  id : Nat
  name : String
deriving DecidableEq, Repr

/-- A project row: `interface Project`.  Fields marked `?` in the source
interface are `Option`s; `id` is always present on stored rows. -/
structure Project where
  id : Nat
  name : String
  language : Option String
  path : String
  uses_virtual_env : Option Bool
  virtual_env_manager : Option String
  category_id : Option Nat
deriving DecidableEq, Repr

/-- `Omit<Project, 'id'>`: the argument of `addProject`. -/
structure ProjectInput where
  name : String
  language : Option String
  path : String
  uses_virtual_env : Option Bool
  virtual_env_manager : Option String
  category_id : Option Nat
deriving DecidableEq, Repr

/-- The persisted document: `interface DatabaseJson`. -/
structure DatabaseJson where
  categories : List Category
  projects : List Project
  lastCategoryId : Nat
  lastProjectId : Nat
deriving DecidableEq, Repr

/-- The document `_load` returns for a missing or corrupted file. -/
def emptyDb : DatabaseJson := ⟨[], [], 0, 0⟩

/-- The sentinel-ensuring part of the `DatabaseManager` constructor:
if no category is named `"Unamed"` (the source's spelling), bump
`lastCategoryId` and push `{id: lastCategoryId, name: 'Unamed'}`. -/
def initStore (db : DatabaseJson) : DatabaseJson :=
  if db.categories.any (fun c => c.name == "Unamed") then db
  else
    { db with
      lastCategoryId := db.lastCategoryId + 1
      categories := db.categories ++ [⟨db.lastCategoryId + 1, "Unamed"⟩] }

/-- `addCategory(name)`: reject the empty string (`!name`), reject a
duplicate of the trimmed name, otherwise push the trimmed name under the
next id and report `true`. -/
def addCategory (db : DatabaseJson) (nm : String) : DatabaseJson × Bool :=
  if nm = "" then (db, false)
  else if db.categories.any (fun c => c.name == strTrim nm) then (db, false)
  else
    ({ db with
       lastCategoryId := db.lastCategoryId + 1
       categories := db.categories ++ [⟨db.lastCategoryId + 1, strTrim nm⟩] },
     true)

/-- `getCategories()`: the stored list, as is. -/
def getCategories (db : DatabaseJson) : List Category := db.categories

/-- `deleteCategory(id)`: drop every category whose id matches and every
project whose `category_id` matches; report whether the category count
changed (`before !== after`). -/
def deleteCategory (db : DatabaseJson) (i : Nat) : DatabaseJson × Bool :=
  let cats := db.categories.filter (fun c => c.id != i)
  let projs := db.projects.filter (fun p => p.category_id != some i)
  ({ db with categories := cats, projects := projs },
   db.categories.length != cats.length)

/-- The `category_id` resolution at the top of `addProject`: a missing or
falsy (`0`) `category_id` is replaced by the id of the first category named
`"Unamed"`, when one exists; otherwise it is left as supplied. -/
def resolveCategoryId (db : DatabaseJson) (cid : Option Nat) : Option Nat :=
  if cid = none ∨ cid = some 0 then
    match db.categories.find? (fun c => c.name == "Unamed") with
    | some u => some u.id
    | none => cid
  else cid

/-- `addProject(project)`: resolve the category id, reject an empty `name`
or `path`, otherwise push the record under the next project id. -/
def addProject (db : DatabaseJson) (pr : ProjectInput) : DatabaseJson × Bool :=
  let cid := resolveCategoryId db pr.category_id
  if pr.name = "" ∨ pr.path = "" then (db, false)
  else
    ({ db with
       lastProjectId := db.lastProjectId + 1
       projects := db.projects ++
         [⟨db.lastProjectId + 1, pr.name, pr.language, pr.path,
           pr.uses_virtual_env, pr.virtual_env_manager, cid⟩] },
     true)

/-- One element of the `getProjects()` result: the project row plus the
computed `category_name` join column. -/
structure ProjectView where
  project : Project
  category_name : Option String
deriving DecidableEq, Repr

/-- `getProjects()`: every project, annotated with the name of the first
category whose id equals its `category_id` (or nothing when none does). -/
def getProjects (db : DatabaseJson) : List ProjectView :=
  db.projects.map (fun p =>
    ⟨p, p.category_id.bind (fun cid =>
          (db.categories.find? (fun c => c.id == cid)).map (fun c => c.name))⟩)

/-- `getProject(id)`: the first project with that id, if any. -/
def getProject (db : DatabaseJson) (i : Nat) : Option Project :=
  db.projects.find? (fun p => p.id == i)

/-- `Partial<Omit<Project, 'id'>>`: for each column, `none` means the key
is absent from the update payload; for the columns that are themselves
optional, a present key carries an `Option` (a present key whose value is
`undefined` is `some none`, which the object spread does write). -/
structure ProjectPatch where
  name : Option String
  language : Option (Option String)
  path : Option String
  uses_virtual_env : Option (Option Bool)
  virtual_env_manager : Option (Option String)
  category_id : Option (Option Nat)
deriving DecidableEq, Repr

/-- The all-keys-absent update payload. -/
def emptyPatch : ProjectPatch := ⟨none, none, none, none, none, none⟩

/-- The object spread `{...row, ...patch}`: each key present in the patch
overwrites the row's column, every absent key leaves it unchanged. -/
def applyPatch (p : Project) (t : ProjectPatch) : Project :=
  { id := p.id
    name := t.name.getD p.name
    language := t.language.getD p.language
    path := t.path.getD p.path
    uses_virtual_env := t.uses_virtual_env.getD p.uses_virtual_env
    virtual_env_manager := t.virtual_env_manager.getD p.virtual_env_manager
    category_id := t.category_id.getD p.category_id }

/-- `findIndex` + in-place assignment: replace the first project whose id
matches with its patched version; `none` when no id matches. -/
def updateFirst (i : Nat) (t : ProjectPatch) : List Project → Option (List Project)
  | [] => none
  | p :: ps =>
    if p.id == i then some (applyPatch p t :: ps)
    else (updateFirst i t ps).map (fun l => p :: l)

/-- `updateProject(id, project)`: `false` when no project has the id,
otherwise overwrite the first matching row with the spread of the patch
over it and report `true` (the source does not reject an empty patch). -/
def updateProject (db : DatabaseJson) (i : Nat) (t : ProjectPatch) :
    DatabaseJson × Bool :=
  match updateFirst i t db.projects with
  | none => (db, false)
  | some ps => ({ db with projects := ps }, true)

/-- `deleteProject(id)`: drop every project whose id matches; report
whether the project count changed (`before !== after`). -/
def deleteProject (db : DatabaseJson) (i : Nat) : DatabaseJson × Bool :=
  let projs := db.projects.filter (fun p => p.id != i)
  ({ db with projects := projs }, db.projects.length != projs.length)

/-- Outcome of one workflow run: the store state after it, the number of
store-mutating calls it issued, and its boolean result (`false` both for
an abort and for a reported failure). -/
structure WfResult where
  db : DatabaseJson
  muts : Nat
  ok : Bool
deriving DecidableEq, Repr

/-- An `await showInputBox(...)` followed by the source's `if (!answer)
return false` guard: a cancelled prompt (`none`) and an empty answer both
abort with `ab`; a non-empty answer is passed on. -/
def promptStr (ans : Option String) (ab : WfResult) (k : String → WfResult) :
    WfResult :=
  match ans with
  | none => ab
  | some s => if s = "" then ab else k s

/-- The prompt answers of one `editProject` run.  A pick answer is the
index of the chosen item in the offered list (`none` = cancelled). -/
structure EditAnswers where
  projectPick : Option Nat
  nameAns : Option String
  languageAns : Option String
  pathAns : Option String
  usesVirtualEnvAns : Option String
  envManagerAns : Option String
  categoryPick : Option Nat
deriving DecidableEq, Repr

/-- `ProjectQuickPickProvider.editProject`: abort when no projects exist
or when the project pick, the name, language or path inputs, the env
manager input (only reached after answering `'Sim'`), or the category
pick yields no value.  The uses-virtual-env pick has no such guard: a
cancelled answer simply fails the `=== 'Sim'` comparison and the workflow
continues.  The single store mutation is the final `updateProject`. -/
def editProjectWf (db : DatabaseJson) (a : EditAnswers) : WfResult :=
  let ab : WfResult := ⟨db, 0, false⟩
  let projs := getProjects db
  if projs.isEmpty then ab
  else
    match a.projectPick.bind (fun i => projs[i]?) with
    | none => ab
    | some pv =>
      promptStr a.nameAns ab (fun nm =>
      promptStr a.languageAns ab (fun lang =>
      promptStr a.pathAns ab (fun pth =>
        let finish : Option String → WfResult := fun envMgr =>
          let vem : Option String :=
            match envMgr with
            | some s => if s = "" then none else some (strTrim s)
            | none => none
          match a.categoryPick.bind (fun i => (getCategories db)[i]?) with
          | none => ab
          | some cat =>
            let r := updateProject db pv.project.id
              ⟨some (strTrim nm), some (some (strTrim lang)),
               some (strTrim pth), some (some (a.usesVirtualEnvAns == some "Sim")),
               some vem, some (some cat.id)⟩
            ⟨r.1, 1, r.2⟩
        if a.usesVirtualEnvAns == some "Sim" then
          promptStr a.envManagerAns ab (fun em => finish (some em))
        else finish pv.project.virtual_env_manager)))

/-- The prompt answers of one `addProject` run. -/
structure AddAnswers where
  categoryPick : Option Nat
  nameAns : Option String
  languageAns : Option String
  pathAns : Option String
  usesVirtualEnvAns : Option String
  envManagerAns : Option String
deriving DecidableEq, Repr

/-- `ProjectQuickPickProvider.addProject`: abort when no categories
exist or when any guarded prompt yields no value (again the
uses-virtual-env pick is unguarded).  After a successful store write the
workflow writes `<name>.code-workspace` into the project path when that
file does not exist; `wsFileExists` says whether it does and `wsWriteFails`
whether that write throws — a throw is caught by the surrounding handler,
which makes the whole workflow return `false`. -/
def addProjectWf (db : DatabaseJson) (a : AddAnswers)
    (wsFileExists wsWriteFails : Bool) : WfResult :=
  let ab : WfResult := ⟨db, 0, false⟩
  let cats := getCategories db
  if cats.isEmpty then ab
  else
    match a.categoryPick.bind (fun i => cats[i]?) with
    | none => ab
    | some cat =>
      promptStr a.nameAns ab (fun nm =>
      promptStr a.languageAns ab (fun lang =>
      promptStr a.pathAns ab (fun pth =>
        let finish : Option String → WfResult := fun envMgr =>
          let r := addProject db
            ⟨strTrim nm, some (strTrim lang), strTrim pth,
             some (a.usesVirtualEnvAns == some "Sim"),
             envMgr.map strTrim, some cat.id⟩
          if r.2 = false then ⟨r.1, 1, false⟩
          else if !wsFileExists && wsWriteFails then ⟨r.1, 1, false⟩
          else ⟨r.1, 1, true⟩
        if a.usesVirtualEnvAns == some "Sim" then
          promptStr a.envManagerAns ab (fun em => finish (some em))
        else finish none)))

/-- `editCategory`'s `findIndex` + in-place assignment: give the first
category whose id matches the new name; `none` when no id matches
(`findIndex === -1`). -/
def renameFirst (i : Nat) (newName : String) : List Category → Option (List Category)
  | [] => none
  | c :: cs =>
    if c.id == i then some (⟨c.id, newName⟩ :: cs)
    else (renameFirst i newName cs).map (fun l => c :: l)

/-- `editCategory(id, newName)`: reject the empty string, a missing id,
and a trimmed name already carried by a different category; otherwise
rename the first matching category in place and report `true`. -/
def editCategory (db : DatabaseJson) (i : Nat) (newName : String) :
    DatabaseJson × Bool :=
  if newName = "" then (db, false)
  else
    match renameFirst i (strTrim newName) db.categories with
    | none => (db, false)
    | some cs =>
      if db.categories.any (fun c => c.name == strTrim newName && c.id != i) then
        (db, false)
      else ({ db with categories := cs }, true)

/-- The prompt answer of one add-category workflow run. -/
structure CatAnswers where
  nameAns : Option String
deriving DecidableEq, Repr

/-- `ProjectQuickPickProvider.addCategory`: one guarded name input, then
the `addCategory` store call on the trimmed answer. -/
def addCategoryWf (db : DatabaseJson) (a : CatAnswers) : WfResult :=
  let ab : WfResult := ⟨db, 0, false⟩
  promptStr a.nameAns ab (fun s =>
    let r := addCategory db (strTrim s)
    ⟨r.1, 1, r.2⟩)

/-- The prompt answers of one edit-category workflow run. -/
structure EditCatAnswers where
  categoryPick : Option Nat
  newNameAns : Option String
deriving DecidableEq, Repr

/-- `ProjectQuickPickProvider.editCategory`: abort when no categories
exist, on a cancelled category pick, or on a cancelled/empty name input;
only then the `editCategory` store call. -/
def editCategoryWf (db : DatabaseJson) (a : EditCatAnswers) : WfResult :=
  let ab : WfResult := ⟨db, 0, false⟩
  let cats := getCategories db
  if cats.isEmpty then ab
  else
    match a.categoryPick.bind (fun i => cats[i]?) with
    | none => ab
    | some cat =>
      promptStr a.newNameAns ab (fun s =>
        let r := editCategory db cat.id (strTrim s)
        ⟨r.1, 1, r.2⟩)

/-- The prompt answers of one delete workflow run: an item pick and the
yes/no confirmation. -/
structure DelAnswers where
  itemPick : Option Nat
  confirmAns : Option String
deriving DecidableEq, Repr

/-- `ProjectQuickPickProvider.deleteProject`: abort when no projects
exist, on a cancelled pick, or unless the confirmation is exactly
`'Sim'` (a cancelled confirmation also fails that comparison); only then
the `deleteProject` store call. -/
def deleteProjectWf (db : DatabaseJson) (a : DelAnswers) : WfResult :=
  let ab : WfResult := ⟨db, 0, false⟩
  let projs := getProjects db
  if projs.isEmpty then ab
  else
    match a.itemPick.bind (fun i => projs[i]?) with
    | none => ab
    | some pv =>
      if a.confirmAns == some "Sim" then
        let r := deleteProject db pv.project.id
        ⟨r.1, 1, r.2⟩
      else ab

/-- `ProjectQuickPickProvider.deleteCategory`: same shape as the project
deletion, ending in the `deleteCategory` store call. -/
def deleteCategoryWf (db : DatabaseJson) (a : DelAnswers) : WfResult :=
  let ab : WfResult := ⟨db, 0, false⟩
  let cats := getCategories db
  if cats.isEmpty then ab
  else
    match a.itemPick.bind (fun i => cats[i]?) with
    | none => ab
    | some cat =>
      if a.confirmAns == some "Sim" then
        let r := deleteCategory db cat.id
        ⟨r.1, 1, r.2⟩
      else ab

/-- The prompt answers of one open-menu run. -/
structure MenuAnswers where
  categoryPick : Option Nat
  projectPick : Option Nat
deriving DecidableEq, Repr

/-- The labels of `showProjectMenu`'s grouping map, in first-use order:
each project's `category_name`, with `"Sem Categoria"` standing in for
rows whose category did not resolve. -/
def menuGroupKeys (db : DatabaseJson) : List String :=
  (getProjects db).foldl (fun acc pv =>
    let k := pv.category_name.getD "Sem Categoria"
    if acc.contains k then acc else acc ++ [k]) []

/-- `ProjectQuickPickProvider.showProjectMenu`: pick a category label,
then a project grouped under it, then hand the project's path to the
host's open-folder command.  The run never calls a store mutation; a
cancelled category pick returns `false`, and after that point the source
returns without a failure marker whether or not a project was picked. -/
def showProjectMenuWf (db : DatabaseJson) (a : MenuAnswers) : WfResult :=
  let ab : WfResult := ⟨db, 0, false⟩
  match a.categoryPick.bind (fun i => (menuGroupKeys db)[i]?) with
  | none => ab
  | some k =>
    let items := (getProjects db).filter
      (fun pv => pv.category_name.getD "Sem Categoria" == k)
    match a.projectPick.bind (fun i => items[i]?) with
    | none => ⟨db, 0, true⟩
    | some _ => ⟨db, 0, true⟩

section Helpers

/-- A list keeps its length under `filter` exactly when no element is
dropped. -/
theorem filter_length_ne_iff {α : Type} (p : α → Bool) (l : List α) :
    l.length ≠ (l.filter p).length ↔ ∃ x ∈ l, p x = false := by
  constructor
  · intro h
    by_contra hc
    push_neg at hc
    have hall : ∀ x ∈ l, p x = true := by
      intro x hx
      have := hc x hx
      simpa [Bool.not_eq_false] using this
    exact h (by rw [List.filter_eq_self.mpr hall])
  · rintro ⟨x, hx, hpx⟩ h
    have heq : l.filter p = l := (List.filter_sublist l).eq_of_length h.symm
    have : x ∈ l.filter p := by rw [heq]; exact hx
    have := (List.mem_filter.mp this).2
    simp [hpx] at this

end Helpers

/-- C1: for every category id present in the store, `deleteCategory id`
reports success, removes exactly the categories carrying that id, and
removes exactly the projects whose `category_id` equals it, leaving every
other project (and both id counters) unchanged; the success report is
precisely "some category with that id existed". -/
theorem c1_deleteCategory_cascade (db : DatabaseJson) (i : Nat) :
    ((deleteCategory db i).2 = true ↔ ∃ c ∈ db.categories, c.id = i) ∧
    (∀ c, c ∈ (deleteCategory db i).1.categories ↔
      c ∈ db.categories ∧ c.id ≠ i) ∧
    (∀ p, p ∈ (deleteCategory db i).1.projects ↔
      p ∈ db.projects ∧ p.category_id ≠ some i) ∧
    (deleteCategory db i).1.lastCategoryId = db.lastCategoryId ∧
    (deleteCategory db i).1.lastProjectId = db.lastProjectId := by
  refine ⟨?_, ?_, ?_, rfl, rfl⟩
  · show (db.categories.length !=
      (db.categories.filter (fun c => c.id != i)).length) = true ↔ _
    rw [bne_iff_ne, filter_length_ne_iff]
    constructor
    · rintro ⟨c, hc, hpc⟩
      exact ⟨c, hc, by simpa using hpc⟩
    · rintro ⟨c, hc, hpc⟩
      exact ⟨c, hc, by simpa using hpc⟩
  · intro c
    show c ∈ db.categories.filter (fun c => c.id != i) ↔ _
    rw [List.mem_filter]
    simp
  · intro p
    show p ∈ db.projects.filter (fun p => p.category_id != some i) ↔ _
    rw [List.mem_filter]
    simp

/-- C6: `deleteProject id` reports success exactly when some stored
project has that id (and `false` otherwise), and its result keeps
precisely the projects with a different id, touching nothing else. -/
theorem c6_deleteProject_reports (db : DatabaseJson) (i : Nat) :
    ((deleteProject db i).2 = true ↔ ∃ p ∈ db.projects, p.id = i) ∧
    (∀ p, p ∈ (deleteProject db i).1.projects ↔
      p ∈ db.projects ∧ p.id ≠ i) ∧
    (deleteProject db i).1.categories = db.categories ∧
    (deleteProject db i).1.lastCategoryId = db.lastCategoryId ∧
    (deleteProject db i).1.lastProjectId = db.lastProjectId := by
  refine ⟨?_, ?_, rfl, rfl, rfl⟩
  · show (db.projects.length !=
      (db.projects.filter (fun p => p.id != i)).length) = true ↔ _
    rw [bne_iff_ne, filter_length_ne_iff]
    constructor
    · rintro ⟨p, hp, hpp⟩
      exact ⟨p, hp, by simpa using hpp⟩
    · rintro ⟨p, hp, hpp⟩
      exact ⟨p, hp, by simpa using hpp⟩
  · intro p
    show p ∈ db.projects.filter (fun p => p.id != i) ↔ _
    rw [List.mem_filter]
    simp

/-- C3 as stated is false on the code: the constructor's sentinel category
is spelled `"Unamed"`, so after a fresh initialization the store contains
exactly one category, named `"Unamed"`, and no category named
`"Unnamed"` exists. -/
theorem c3_counterexample :
    (initStore emptyDb).categories = [⟨1, "Unamed"⟩] ∧
    ∀ c ∈ (initStore emptyDb).categories, c.name ≠ "Unnamed" := by
  constructor
  · decide
  · decide

/-- C3 (amended to the source's spelling): after any initialization a
category named `"Unamed"` exists, and `addProject` without a
`category_id` stores the new project under the id of the first
`"Unamed"` category. -/
theorem c3_unamed_sentinel (db : DatabaseJson) :
    ((initStore db).categories.any (fun c => c.name == "Unamed")) = true ∧
    ∀ pr : ProjectInput, pr.category_id = none → pr.name ≠ "" → pr.path ≠ "" →
      (addProject (initStore db) pr).2 = true ∧
      (addProject (initStore db) pr).1.projects =
        (initStore db).projects ++
          [⟨(initStore db).lastProjectId + 1, pr.name, pr.language, pr.path,
            pr.uses_virtual_env, pr.virtual_env_manager,
            ((initStore db).categories.find?
              (fun c => c.name == "Unamed")).map (fun c => c.id)⟩] := by
  have hany : ((initStore db).categories.any (fun c => c.name == "Unamed")) = true := by
    unfold initStore
    by_cases h : db.categories.any (fun c => c.name == "Unamed") = true
    · simp [h]
    · simp [h, List.any_append]
  refine ⟨hany, ?_⟩
  intro pr hcid hname hpath
  obtain ⟨u, hu⟩ : ∃ u, (initStore db).categories.find?
      (fun c => c.name == "Unamed") = some u := by
    have hsome : ((initStore db).categories.find?
        (fun c => c.name == "Unamed")).isSome := by
      rw [List.find?_isSome]
      exact List.any_eq_true.mp hany
    exact Option.isSome_iff_exists.mp hsome
  have hres : resolveCategoryId (initStore db) pr.category_id = some u.id := by
    unfold resolveCategoryId
    rw [hcid]
    simp [hu]
  constructor
  · simp [addProject, hname, hpath]
  · simp [addProject, hname, hpath, hres, hu]

/-- C4 as stated is false on the code: `addCategory` only rejects the
empty string, so a whitespace-only name passes both checks and mutates
the store, persisting the empty trimmed name under the next id. -/
theorem c4_counterexample :
    (addCategory (initStore emptyDb) " ").2 = true ∧
    (addCategory (initStore emptyDb) " ").1.categories =
      [⟨1, "Unamed"⟩, ⟨2, ""⟩] := by
  constructor
  · decide
  · decide

/-- C4 (amended): `addCategory name` fails with no mutation when `name`
is the empty string or when a category already carries the trimmed name;
otherwise — whitespace-only names included — it reports success, appends
the trimmed name under the next identity, and exactly one category then
carries that trimmed name. -/
theorem c4_addCategory_amended (db : DatabaseJson) (nm : String) :
    (nm = "" → addCategory db nm = (db, false)) ∧
    ((∃ c ∈ db.categories, c.name = strTrim nm) →
      addCategory db nm = (db, false)) ∧
    (nm ≠ "" → (∀ c ∈ db.categories, c.name ≠ strTrim nm) →
      (addCategory db nm).2 = true ∧
      (addCategory db nm).1.categories =
        db.categories ++ [⟨db.lastCategoryId + 1, strTrim nm⟩] ∧
      ((addCategory db nm).1.categories.filter
        (fun c => c.name == strTrim nm)).length = 1) := by
  refine ⟨?_, ?_, ?_⟩
  · intro h
    simp [addCategory, h]
  · rintro ⟨c, hc, he⟩
    have hany : db.categories.any (fun c => c.name == strTrim nm) = true :=
      List.any_eq_true.mpr ⟨c, hc, by simp [he]⟩
    by_cases h : nm = ""
    · simp [addCategory, h]
    · simp [addCategory, h, hany]
  · intro hnm hall
    have hany : db.categories.any (fun c => c.name == strTrim nm) = false := by
      rw [Bool.eq_false_iff]
      intro hc
      obtain ⟨c, hc, he⟩ := List.any_eq_true.mp hc
      exact hall c hc (by simpa using he)
    refine ⟨by simp [addCategory, hnm, hany], by simp [addCategory, hnm, hany], ?_⟩
    have hnil : db.categories.filter (fun c => c.name == strTrim nm) = [] := by
      rw [List.filter_eq_nil_iff]
      intro c hc
      simpa using hall c hc
    simp [addCategory, hnm, hany, List.filter_append, hnil]

/-- Concrete instance of the amended C3: a fresh store holds the
`"Unamed"` sentinel, and adding `{name: "a", path: "b"}` without a
category stores it under the sentinel's id `1`. -/
theorem c3_unamed_sentinel_witness :
    ((initStore emptyDb).categories.any (fun c => c.name == "Unamed")) = true ∧
    (addProject (initStore emptyDb) ⟨"a", none, "b", none, none, none⟩).2 = true ∧
    (addProject (initStore emptyDb) ⟨"a", none, "b", none, none, none⟩).1.projects =
      [⟨1, "a", none, "b", none, none, some 1⟩] := by
  have h := c3_unamed_sentinel emptyDb
  have h2 := h.2 ⟨"a", none, "b", none, none, none⟩ rfl (by decide) (by decide)
  refine ⟨h.1, h2.1, ?_⟩
  rw [h2.2]
  decide

/-- Concrete instance of the amended C4: adding `" Backend "` to a fresh
store succeeds, stores the trimmed `"Backend"` under id `2`, and exactly
one category then carries that name. -/
theorem c4_addCategory_amended_witness :
    (addCategory (initStore emptyDb) " Backend ").2 = true ∧
    (addCategory (initStore emptyDb) " Backend ").1.categories =
      [⟨1, "Unamed"⟩, ⟨2, "Backend"⟩] ∧
    ((addCategory (initStore emptyDb) " Backend ").1.categories.filter
      (fun c => c.name == "Backend")).length = 1 := by
  have h := (c4_addCategory_amended (initStore emptyDb) " Backend ").2.2
    (by decide) (by decide)
  have e : strTrim " Backend " = "Backend" := by decide
  refine ⟨h.1, ?_, ?_⟩
  · rw [h.2.1]
    decide
  · have h3 := h.2.2
    rw [e] at h3
    exact h3

section UpdateLemmas

/-- Every column of a row survives the all-keys-absent patch. -/
theorem applyPatch_emptyPatch (p : Project) : applyPatch p emptyPatch = p := rfl

/-- `updateFirst` finds nothing exactly when no id matches. -/
theorem updateFirst_eq_none_iff (i : Nat) (t : ProjectPatch) (l : List Project) :
    updateFirst i t l = none ↔ ∀ p ∈ l, p.id ≠ i := by
  induction l with
  | nil => simp [updateFirst]
  | cons p ps ih =>
    by_cases h : p.id = i
    · simp [updateFirst, h]
    · simp [updateFirst, h, ih]

/-- With the all-keys-absent patch, `updateFirst` either finds nothing or
returns the list unchanged. -/
theorem updateFirst_emptyPatch (i : Nat) (l : List Project) :
    updateFirst i emptyPatch l = none ∨ updateFirst i emptyPatch l = some l := by
  induction l with
  | nil => exact Or.inl rfl
  | cons p ps ih =>
    by_cases h : p.id = i
    · exact Or.inr (by simp [updateFirst, h, applyPatch_emptyPatch])
    · rcases ih with h1 | h1
      · exact Or.inl (by simp [updateFirst, h, h1])
      · exact Or.inr (by simp [updateFirst, h, h1])

/-- `updateFirst` patches exactly the first row whose id matches and
keeps every row before and after it. -/
theorem updateFirst_split (i : Nat) (t : ProjectPatch) (l1 l2 : List Project)
    (p : Project) (h1 : ∀ q ∈ l1, q.id ≠ i) (h2 : p.id = i) :
    updateFirst i t (l1 ++ p :: l2) = some (l1 ++ applyPatch p t :: l2) := by
  induction l1 with
  | nil => simp [updateFirst, h2]
  | cons q qs ih =>
    have hq : q.id ≠ i := h1 q (by simp)
    have hrest : ∀ r ∈ qs, r.id ≠ i := fun r hr => h1 r (by simp [hr])
    simp [updateFirst, hq, ih hrest]

end UpdateLemmas

/-- C5 as stated is false on the code: on a store holding project id `1`,
`updateProject 1 {}` with the empty field set does not fail — it reports
`true` (while leaving the store unchanged). -/
theorem c5_counterexample :
    updateProject ⟨[⟨1, "Unamed"⟩], [⟨1, "a", none, "b", none, none, some 1⟩], 1, 1⟩
        1 emptyPatch =
      (⟨[⟨1, "Unamed"⟩], [⟨1, "a", none, "b", none, none, some 1⟩], 1, 1⟩, true) := by
  decide

/-- C5 (amended): `updateProject id patch` fails, changing nothing, exactly
when no project has the id; on an existing project it reports success even
for the empty field set, which leaves the whole store unchanged; it patches
only the first matching row — every supplied column takes the supplied
value, every absent column and every other row keeps its prior value. -/
theorem c5_updateProject_frame (db : DatabaseJson) (i : Nat) (t : ProjectPatch) :
    ((updateProject db i t).2 = true ↔ ∃ p ∈ db.projects, p.id = i) ∧
    ((updateProject db i t).2 = false → updateProject db i t = (db, false)) ∧
    (updateProject db i emptyPatch).1 = db ∧
    (updateProject db i t).1.categories = db.categories ∧
    (∀ l1 p l2, db.projects = l1 ++ p :: l2 → (∀ q ∈ l1, q.id ≠ i) → p.id = i →
      (updateProject db i t).1.projects = l1 ++ applyPatch p t :: l2 ∧
      (updateProject db i t).2 = true) ∧
    (∀ p, applyPatch p emptyPatch = p) ∧
    (∀ p, (applyPatch p t).id = p.id ∧
      (t.name = none → (applyPatch p t).name = p.name) ∧
      (∀ v, t.name = some v → (applyPatch p t).name = v) ∧
      (t.language = none → (applyPatch p t).language = p.language) ∧
      (∀ v, t.language = some v → (applyPatch p t).language = v) ∧
      (t.path = none → (applyPatch p t).path = p.path) ∧
      (∀ v, t.path = some v → (applyPatch p t).path = v) ∧
      (t.uses_virtual_env = none →
        (applyPatch p t).uses_virtual_env = p.uses_virtual_env) ∧
      (∀ v, t.uses_virtual_env = some v → (applyPatch p t).uses_virtual_env = v) ∧
      (t.virtual_env_manager = none →
        (applyPatch p t).virtual_env_manager = p.virtual_env_manager) ∧
      (∀ v, t.virtual_env_manager = some v →
        (applyPatch p t).virtual_env_manager = v) ∧
      (t.category_id = none → (applyPatch p t).category_id = p.category_id) ∧
      (∀ v, t.category_id = some v → (applyPatch p t).category_id = v)) := by
  refine ⟨?_, ?_, ?_, ?_, ?_, applyPatch_emptyPatch, ?_⟩
  · constructor
    · intro h
      by_contra hc
      push_neg at hc
      have : updateFirst i t db.projects = none :=
        (updateFirst_eq_none_iff i t db.projects).mpr hc
      simp [updateProject, this] at h
    · rintro ⟨p, hp, hpi⟩
      cases hf : updateFirst i t db.projects with
      | none =>
        have := (updateFirst_eq_none_iff i t db.projects).mp hf p hp
        exact absurd hpi this
      | some ps => simp [updateProject, hf]
  · intro h
    cases hf : updateFirst i t db.projects with
    | none => simp [updateProject, hf]
    | some ps => simp [updateProject, hf] at h
  · rcases updateFirst_emptyPatch i db.projects with h | h
    · simp [updateProject, h]
    · simp [updateProject, h]
  · cases hf : updateFirst i t db.projects with
    | none => simp [updateProject, hf]
    | some ps => simp [updateProject, hf]
  · intro l1 p l2 hsplit hl1 hpi
    have := updateFirst_split i t l1 l2 p hl1 hpi
    constructor
    · simp [updateProject, hsplit, this]
    · simp [updateProject, hsplit, this]
  · intro p
    refine ⟨rfl, ?_, ?_, ?_, ?_, ?_, ?_, ?_, ?_, ?_, ?_, ?_, ?_⟩ <;>
      first
        | (intro h; simp [applyPatch, h])
        | (intro v h; simp [applyPatch, h])

/-- Concrete instance of the amended C5: patching only `name` on the
single stored project changes that column alone and reports success. -/
theorem c5_updateProject_frame_witness :
    (updateProject ⟨[⟨1, "Unamed"⟩], [⟨1, "a", none, "b", none, none, some 1⟩], 1, 1⟩
        1 ⟨some "x", none, none, none, none, none⟩).1.projects =
      [⟨1, "x", none, "b", none, none, some 1⟩] ∧
    (updateProject ⟨[⟨1, "Unamed"⟩], [⟨1, "a", none, "b", none, none, some 1⟩], 1, 1⟩
        1 ⟨some "x", none, none, none, none, none⟩).2 = true := by
  have h := (c5_updateProject_frame
    ⟨[⟨1, "Unamed"⟩], [⟨1, "a", none, "b", none, none, some 1⟩], 1, 1⟩
    1 ⟨some "x", none, none, none, none, none⟩).2.2.2.2.1
    [] ⟨1, "a", none, "b", none, none, some 1⟩ [] rfl (by decide) rfl
  refine ⟨?_, h.2⟩
  rw [h.1]
  decide

/-- C10 as stated is false on the code in its creation-time conjunct:
`addProject` enforces no referential constraint — on a fresh store whose
only category has id `1`, an input carrying the dangling `category_id`
`999` is accepted and stored verbatim, with no category of that id in
existence. -/
theorem c10_counterexample :
    (addProject (initStore emptyDb) ⟨"x", none, "y", none, none, some 999⟩).2 =
      true ∧
    (addProject (initStore emptyDb)
        ⟨"x", none, "y", none, none, some 999⟩).1.projects =
      [⟨1, "x", none, "y", none, none, some 999⟩] ∧
    ∀ c ∈ (addProject (initStore emptyDb)
        ⟨"x", none, "y", none, none, some 999⟩).1.categories, c.id ≠ 999 := by
  refine ⟨by decide, by decide, by decide⟩

/-- C10 (amended): on any existing project id, `updateProject` accepts
every non-empty (indeed every) field set without validation, storing the
supplied values verbatim into the first matching row; `addProject` is the
only place the non-empty `name`/`path` check happens, but it performs no
referential check either — a supplied non-zero `category_id` is stored
as-is, existing category or not, and only a missing or `0` one is
resolved to the sentinel. -/
theorem c10_updateProject_no_validation (db : DatabaseJson) (i : Nat)
    (t : ProjectPatch) (h : ∃ p ∈ db.projects, p.id = i) :
    (updateProject db i t).2 = true ∧
    (∀ l1 p l2, db.projects = l1 ++ p :: l2 → (∀ q ∈ l1, q.id ≠ i) → p.id = i →
      (updateProject db i t).1.projects = l1 ++ applyPatch p t :: l2) ∧
    (∀ pr : ProjectInput, pr.name = "" ∨ pr.path = "" →
      addProject db pr = (db, false)) ∧
    (∀ pr : ProjectInput, ∀ cid, pr.category_id = some cid → cid ≠ 0 →
      pr.name ≠ "" → pr.path ≠ "" →
      (addProject db pr).2 = true ∧
      (addProject db pr).1.projects =
        db.projects ++ [⟨db.lastProjectId + 1, pr.name, pr.language, pr.path,
          pr.uses_virtual_env, pr.virtual_env_manager, some cid⟩]) := by
  refine ⟨?_, ?_, ?_, ?_⟩
  · obtain ⟨p, hp, hpi⟩ := h
    cases hf : updateFirst i t db.projects with
    | none =>
      have := (updateFirst_eq_none_iff i t db.projects).mp hf p hp
      exact absurd hpi this
    | some ps => simp [updateProject, hf]
  · intro l1 p l2 hsplit hl1 hpi
    have := updateFirst_split i t l1 l2 p hl1 hpi
    simp [updateProject, hsplit, this]
  · intro pr hpr
    simp [addProject, hpr]
  · intro pr cid hcid hcid0 hname hpath
    have hres : resolveCategoryId db pr.category_id = some cid := by
      unfold resolveCategoryId
      rw [hcid]
      simp [hcid0]
    have hcond : ¬(pr.name = "" ∨ pr.path = "") := by simp [hname, hpath]
    constructor
    · simp [addProject, hcond]
    · simp [addProject, hcond, hres]

/-- Concrete instance of the amended C10: on a store holding project id
`1`, a patch setting `name` to the empty string and `category_id` to the
dangling id `999` is accepted and stored verbatim; `addProject` still
rejects an empty name, yet accepts and stores the same dangling
`category_id` on a valid input. -/
theorem c10_updateProject_no_validation_witness :
    (updateProject ⟨[⟨1, "Unamed"⟩], [⟨1, "a", none, "b", none, none, some 1⟩], 1, 1⟩
        1 ⟨some "", none, none, none, none, some (some 999)⟩).2 = true ∧
    (updateProject ⟨[⟨1, "Unamed"⟩], [⟨1, "a", none, "b", none, none, some 1⟩], 1, 1⟩
        1 ⟨some "", none, none, none, none, some (some 999)⟩).1.projects =
      [⟨1, "", none, "b", none, none, some 999⟩] ∧
    addProject ⟨[⟨1, "Unamed"⟩], [⟨1, "a", none, "b", none, none, some 1⟩], 1, 1⟩
        ⟨"", none, "b", none, none, none⟩ =
      (⟨[⟨1, "Unamed"⟩], [⟨1, "a", none, "b", none, none, some 1⟩], 1, 1⟩, false) ∧
    (addProject ⟨[⟨1, "Unamed"⟩], [⟨1, "a", none, "b", none, none, some 1⟩], 1, 1⟩
        ⟨"x", none, "y", none, none, some 999⟩).1.projects =
      [⟨1, "a", none, "b", none, none, some 1⟩,
       ⟨2, "x", none, "y", none, none, some 999⟩] := by
  have h := c10_updateProject_no_validation
    ⟨[⟨1, "Unamed"⟩], [⟨1, "a", none, "b", none, none, some 1⟩], 1, 1⟩
    1 ⟨some "", none, none, none, none, some (some 999)⟩
    ⟨⟨1, "a", none, "b", none, none, some 1⟩, by decide, rfl⟩
  refine ⟨h.1, ?_, h.2.2.1 ⟨"", none, "b", none, none, none⟩ (Or.inl rfl), ?_⟩
  · have h2 := h.2.1 [] ⟨1, "a", none, "b", none, none, some 1⟩ [] rfl (by decide) rfl
    rw [h2]
    decide
  · have h4 := h.2.2.2 ⟨"x", none, "y", none, none, some 999⟩ 999 rfl
      (by decide) (by decide) (by decide)
    rw [h4.2]
    decide

/-- C8: for valid input (non-empty name and path) added to a store whose
project ids do not already use the next identity, `addProject` succeeds
and `getProject` on the assigned id returns exactly the input plus that
id and the resolved `category_id`. -/
theorem c8_addProject_roundTrip (db : DatabaseJson) (pr : ProjectInput)
    (hname : pr.name ≠ "") (hpath : pr.path ≠ "")
    (hfresh : ∀ p ∈ db.projects, p.id ≠ db.lastProjectId + 1) :
    (addProject db pr).2 = true ∧
    getProject (addProject db pr).1 (db.lastProjectId + 1) =
      some ⟨db.lastProjectId + 1, pr.name, pr.language, pr.path,
        pr.uses_virtual_env, pr.virtual_env_manager,
        resolveCategoryId db pr.category_id⟩ := by
  have hcond : ¬(pr.name = "" ∨ pr.path = "") := by simp [hname, hpath]
  constructor
  · simp [addProject, hcond]
  · have hnone : db.projects.find? (fun p => p.id == db.lastProjectId + 1) = none := by
      rw [List.find?_eq_none]
      intro p hp
      simpa using hfresh p hp
    simp [addProject, hcond, getProject, List.find?_append, hnone]

/-- Concrete instance of C8: the round trip on a fresh store returns the
full input record under the assigned id `1`. -/
theorem c8_addProject_roundTrip_witness :
    (addProject (initStore emptyDb)
        ⟨"Api", some "ts", "/x", some true, some "venv", some 1⟩).2 = true ∧
    getProject (addProject (initStore emptyDb)
        ⟨"Api", some "ts", "/x", some true, some "venv", some 1⟩).1
        ((initStore emptyDb).lastProjectId + 1) =
      some ⟨1, "Api", some "ts", "/x", some true, some "venv", some 1⟩ := by
  have h := c8_addProject_roundTrip (initStore emptyDb)
    ⟨"Api", some "ts", "/x", some true, some "venv", some 1⟩
    (by decide) (by decide) (by decide)
  refine ⟨h.1, ?_⟩
  rw [h.2]
  decide

/-- C9: `deleteCategory` treats the sentinel like any other category —
when every `"Unamed"` category carries the deleted id, none survives and
nothing re-creates one; a subsequent `addProject` without a `category_id`
then persists the project with an absent `category_id`, and `getProjects`
returns that row with no category name. -/
theorem c9_sentinel_not_protected (db : DatabaseJson) (cid : Nat)
    (hall : ∀ c ∈ db.categories, c.name = "Unamed" → c.id = cid) :
    (∀ c ∈ (deleteCategory db cid).1.categories, c.name ≠ "Unamed") ∧
    ∀ pr : ProjectInput, pr.category_id = none → pr.name ≠ "" → pr.path ≠ "" →
      (addProject (deleteCategory db cid).1 pr).2 = true ∧
      (addProject (deleteCategory db cid).1 pr).1.categories =
        (deleteCategory db cid).1.categories ∧
      (addProject (deleteCategory db cid).1 pr).1.projects =
        (deleteCategory db cid).1.projects ++
          [⟨db.lastProjectId + 1, pr.name, pr.language, pr.path,
            pr.uses_virtual_env, pr.virtual_env_manager, none⟩] ∧
      getProjects (addProject (deleteCategory db cid).1 pr).1 =
        getProjects (deleteCategory db cid).1 ++
          [⟨⟨db.lastProjectId + 1, pr.name, pr.language, pr.path,
             pr.uses_virtual_env, pr.virtual_env_manager, none⟩, none⟩] := by
  have hgone : ∀ c ∈ (deleteCategory db cid).1.categories, c.name ≠ "Unamed" := by
    intro c hc hn
    have hm := List.mem_filter.mp hc
    have hid : c.id ≠ cid := by simpa using hm.2
    exact hid (hall c hm.1 hn)
  refine ⟨hgone, ?_⟩
  intro pr hcid hname hpath
  have hcond : ¬(pr.name = "" ∨ pr.path = "") := by simp [hname, hpath]
  have hfind : (deleteCategory db cid).1.categories.find?
      (fun c => c.name == "Unamed") = none := by
    rw [List.find?_eq_none]
    intro c hc
    simpa using hgone c hc
  have hres : resolveCategoryId (deleteCategory db cid).1 pr.category_id = none := by
    unfold resolveCategoryId
    rw [hcid]
    simp [hfind]
  refine ⟨by simp [addProject, hcond], by simp [addProject, hcond], ?_, ?_⟩
  · simp [addProject, hcond, hres]
    simp [deleteCategory]
  · simp [getProjects, addProject, hcond, hres]
    simp [deleteCategory]

/-- Concrete instance of C9: deleting the sentinel (id `1`) on a store
holding one project, then adding `{name: "c", path: "d"}` without a
category, stores the project with no `category_id` and `getProjects`
reports it with no category name. -/
theorem c9_sentinel_not_protected_witness :
    (addProject
        (deleteCategory ⟨[⟨1, "Unamed"⟩],
          [⟨1, "a", none, "b", none, none, some 1⟩], 1, 1⟩ 1).1
        ⟨"c", none, "d", none, none, none⟩).2 = true ∧
    (addProject
        (deleteCategory ⟨[⟨1, "Unamed"⟩],
          [⟨1, "a", none, "b", none, none, some 1⟩], 1, 1⟩ 1).1
        ⟨"c", none, "d", none, none, none⟩).1.projects =
      [⟨2, "c", none, "d", none, none, none⟩] ∧
    getProjects (addProject
        (deleteCategory ⟨[⟨1, "Unamed"⟩],
          [⟨1, "a", none, "b", none, none, some 1⟩], 1, 1⟩ 1).1
        ⟨"c", none, "d", none, none, none⟩).1 =
      [⟨⟨2, "c", none, "d", none, none, none⟩, none⟩] := by
  have h := c9_sentinel_not_protected
    ⟨[⟨1, "Unamed"⟩], [⟨1, "a", none, "b", none, none, some 1⟩], 1, 1⟩ 1
    (by decide)
  have h2 := h.2 ⟨"c", none, "d", none, none, none⟩ rfl (by decide) (by decide)
  refine ⟨h2.1, ?_, ?_⟩
  · rw [h2.2.2.1]
    decide
  · rw [h2.2.2.2]
    decide

/-- C2 as stated is false on the code: in the edit-project workflow the
uses-virtual-env pick carries no cancellation guard, so a run whose
answer to that prompt is `none` still reaches and performs the
`updateProject` store mutation. -/
theorem c2_counterexample :
    (⟨some 0, some "x", some "y", some "z", none, none,
        some 0⟩ : EditAnswers).usesVirtualEnvAns = none ∧
    (editProjectWf ⟨[⟨1, "Unamed"⟩], [⟨1, "a", none, "b", none, none, some 1⟩], 1, 1⟩
        ⟨some 0, some "x", some "y", some "z", none, none, some 0⟩).muts = 1 ∧
    (editProjectWf ⟨[⟨1, "Unamed"⟩], [⟨1, "a", none, "b", none, none, some 1⟩], 1, 1⟩
        ⟨some 0, some "x", some "y", some "z", none, none, some 0⟩).db ≠
      ⟨[⟨1, "Unamed"⟩], [⟨1, "a", none, "b", none, none, some 1⟩], 1, 1⟩ := by
  refine ⟨rfl, by decide, by decide⟩

/-- C2 (amended): across all seven workflows, every prompt that carries
a cancellation guard — which is every prompt except the uses-virtual-env
yes/no pick of the add-project and edit-project workflows — aborts the
whole workflow with zero store mutations when it returns no answer; the
open-menu workflow never mutates the store at all; in particular the
edit-project workflow cancelled at its second prompt (the name input)
performs zero store mutations. -/
theorem c2_cancellation_aborts (db : DatabaseJson) (a : EditAnswers)
    (b : AddAnswers) (fe wf : Bool) (c : CatAnswers) (d : EditCatAnswers)
    (e f : DelAnswers) (g : MenuAnswers) :
    (a.projectPick = none → editProjectWf db a = ⟨db, 0, false⟩) ∧
    (a.nameAns = none → editProjectWf db a = ⟨db, 0, false⟩) ∧
    (a.languageAns = none → editProjectWf db a = ⟨db, 0, false⟩) ∧
    (a.pathAns = none → editProjectWf db a = ⟨db, 0, false⟩) ∧
    (a.usesVirtualEnvAns = some "Sim" → a.envManagerAns = none →
      editProjectWf db a = ⟨db, 0, false⟩) ∧
    (a.categoryPick = none → editProjectWf db a = ⟨db, 0, false⟩) ∧
    (b.categoryPick = none → addProjectWf db b fe wf = ⟨db, 0, false⟩) ∧
    (b.nameAns = none → addProjectWf db b fe wf = ⟨db, 0, false⟩) ∧
    (b.languageAns = none → addProjectWf db b fe wf = ⟨db, 0, false⟩) ∧
    (b.pathAns = none → addProjectWf db b fe wf = ⟨db, 0, false⟩) ∧
    (b.usesVirtualEnvAns = some "Sim" → b.envManagerAns = none →
      addProjectWf db b fe wf = ⟨db, 0, false⟩) ∧
    (c.nameAns = none → addCategoryWf db c = ⟨db, 0, false⟩) ∧
    (d.categoryPick = none → editCategoryWf db d = ⟨db, 0, false⟩) ∧
    (d.newNameAns = none → editCategoryWf db d = ⟨db, 0, false⟩) ∧
    (e.itemPick = none → deleteProjectWf db e = ⟨db, 0, false⟩) ∧
    (e.confirmAns = none → deleteProjectWf db e = ⟨db, 0, false⟩) ∧
    (f.itemPick = none → deleteCategoryWf db f = ⟨db, 0, false⟩) ∧
    (f.confirmAns = none → deleteCategoryWf db f = ⟨db, 0, false⟩) ∧
    (g.categoryPick = none → showProjectMenuWf db g = ⟨db, 0, false⟩) ∧
    (showProjectMenuWf db g).db = db ∧
    (showProjectMenuWf db g).muts = 0 := by
  refine ⟨?_, ?_, ?_, ?_, ?_, ?_, ?_, ?_, ?_, ?_, ?_, ?_, ?_, ?_, ?_, ?_,
    ?_, ?_, ?_, ?_, ?_⟩
  · intro h
    simp only [editProjectWf, promptStr, h, Option.bind]
    repeat' split
    all_goals rfl
  · intro h
    simp only [editProjectWf, promptStr, h, Option.bind]
    repeat' split
    all_goals rfl
  · intro h
    simp only [editProjectWf, promptStr, h, Option.bind]
    repeat' split
    all_goals rfl
  · intro h
    simp only [editProjectWf, promptStr, h, Option.bind]
    repeat' split
    all_goals rfl
  · intro h1 h2
    simp only [editProjectWf, promptStr, h1, h2, Option.bind]
    repeat' split
    all_goals simp_all
  · intro h
    simp only [editProjectWf, promptStr, h, Option.bind]
    repeat' split
    all_goals rfl
  · intro h
    simp only [addProjectWf, promptStr, h, Option.bind]
    repeat' split
    all_goals rfl
  · intro h
    simp only [addProjectWf, promptStr, h, Option.bind]
    repeat' split
    all_goals rfl
  · intro h
    simp only [addProjectWf, promptStr, h, Option.bind]
    repeat' split
    all_goals rfl
  · intro h
    simp only [addProjectWf, promptStr, h, Option.bind]
    repeat' split
    all_goals rfl
  · intro h1 h2
    simp only [addProjectWf, promptStr, h1, h2, Option.bind]
    repeat' split
    all_goals simp_all
  · intro h
    simp only [addCategoryWf, promptStr, h, Option.bind]
  · intro h
    simp only [editCategoryWf, promptStr, h, Option.bind]
    repeat' split
    all_goals rfl
  · intro h
    simp only [editCategoryWf, promptStr, h, Option.bind]
    repeat' split
    all_goals rfl
  · intro h
    simp only [deleteProjectWf, promptStr, h, Option.bind]
    repeat' split
    all_goals rfl
  · intro h
    simp only [deleteProjectWf, promptStr, h, Option.bind]
    repeat' split
    all_goals first
      | rfl
      | (exfalso; simp_all)
  · intro h
    simp only [deleteCategoryWf, promptStr, h, Option.bind]
    repeat' split
    all_goals rfl
  · intro h
    simp only [deleteCategoryWf, promptStr, h, Option.bind]
    repeat' split
    all_goals first
      | rfl
      | (exfalso; simp_all)
  · intro h
    simp only [showProjectMenuWf, promptStr, h, Option.bind]
  · simp only [showProjectMenuWf, Option.bind]
    repeat' split
    all_goals rfl
  · simp only [showProjectMenuWf, Option.bind]
    repeat' split
    all_goals rfl

/-- Concrete instance of the amended C2: the edit-project workflow on a
one-project store, cancelled at its second prompt (the name input),
returns the store untouched with zero mutations. -/
theorem c2_cancellation_aborts_witness :
    editProjectWf ⟨[⟨1, "Unamed"⟩], [⟨1, "a", none, "b", none, none, some 1⟩], 1, 1⟩
        ⟨some 0, none, some "y", some "z", some "Sim", some "venv", some 0⟩ =
      ⟨⟨[⟨1, "Unamed"⟩], [⟨1, "a", none, "b", none, none, some 1⟩], 1, 1⟩,
        0, false⟩ :=
  (c2_cancellation_aborts
    ⟨[⟨1, "Unamed"⟩], [⟨1, "a", none, "b", none, none, some 1⟩], 1, 1⟩
    ⟨some 0, none, some "y", some "z", some "Sim", some "venv", some 0⟩
    ⟨none, none, none, none, none, none⟩ false false
    ⟨none⟩ ⟨none, none⟩ ⟨none, none⟩ ⟨none, none⟩ ⟨none, none⟩).2.1 rfl

/-- C7 as stated is false on the code: with the store write already
succeeded (the project is persisted in the resulting store), a throwing
workspace-descriptor write is caught by the workflow's surrounding
handler, which reports failure (`ok = false`), not success. -/
theorem c7_counterexample :
    (addProjectWf (initStore emptyDb)
        ⟨some 0, some "x", some "y", some "z", none, none⟩ false true).ok = false ∧
    (addProjectWf (initStore emptyDb)
        ⟨some 0, some "x", some "y", some "z", none, none⟩ false true).db.projects =
      [⟨1, "x", some "y", "z", some false, none, some 1⟩] := by
  constructor
  · decide
  · decide

set_option maxHeartbeats 1200000 in
/-- C7 (amended): a failing workspace-descriptor write never touches the
store — the run ends with exactly the store state and mutation count of
the non-failing run, so the already-completed store write is kept — but
the failing run always reports failure, even after the successful store
write. -/
theorem c7_ws_failure_keeps_store (db : DatabaseJson) (a : AddAnswers) :
    (addProjectWf db a false true).db = (addProjectWf db a false false).db ∧
    (addProjectWf db a false true).muts = (addProjectWf db a false false).muts ∧
    (addProjectWf db a false true).ok = false := by
  refine ⟨?_, ?_, ?_⟩ <;>
    (simp only [addProjectWf, promptStr, Option.bind]
     repeat' split
     all_goals first
       | rfl
       | (exfalso; simp_all))

end ProjectSwitcher
